import Mathlib

/-!
Verification of the DataCommons client materialization layer
(`datacommons/datacommons.py`): the `DCNode` identity/equality model, its
per-node per-property per-direction value cache (`get_property_values`),
and the `DCFrame` tabular-view engine (`merge`, `expand`, `add_column`).

The Python code is shallowly embedded as executable Lean functions.
External collaborators (the HTTP transport, the pandas row store, the
`Client` schema lookup) are modelled as explicit inputs: the decoded
server response is an input list, the schema lookup is an oracle
function, and the iteration order of a Python `set` (which is
implementation defined) is an input `shuffle` function constrained to be
a permutation in the theorems that need it.
-/

/-! ## DCNode: identity, equality, leaves (datacommons.py lines 49-154) -/

/-- A DataCommons node as materialized by `DCNode.__init__`: either a
dcid-bearing entity or a leaf carrying only a scalar value.  The cached
property maps of the node under study are kept in a separate
`PropsState` (the values stored in a cache are nodes whose own caches
are empty, so this flattening loses nothing). -/
structure DCNode where
  dcid : Option String
  value : Option String
  name : Option String
  types : List String
deriving DecidableEq, Repr

/-- Python truthiness of an optional string field (`bool(kwargs[...])`):
`None` and the empty string are falsy. -/
def pyTruthy : Option String → Bool
  | none => false
  | some s => !(s == "")

/-- `DCNode.__eq__` (lines 118-125): `self._dcid and other._dcid and
self._dcid == other._dcid`. -/
def dcnodeEq (a b : DCNode) : Bool :=
  pyTruthy a.dcid && pyTruthy b.dcid && (a.dcid == b.dcid)

/-- `DCNode.__ne__` (lines 127-129): `not (self == other)`. -/
def dcnodeNe (a b : DCNode) : Bool := !(dcnodeEq a b)

/-- `DCNode.is_leaf` (lines 152-154): `bool(self._value)`. -/
def is_leaf (n : DCNode) : Bool := pyTruthy n.value

/-- The shape guaranteed by `DCNode.__init__` (lines 92-116): a node
carries a truthy dcid and no value, or no dcid and a truthy value. -/
def wfDCNode (n : DCNode) : Prop :=
  (pyTruthy n.dcid = true ∧ n.value = none) ∨ (n.dcid = none ∧ pyTruthy n.value = true)

instance (n : DCNode) : Decidable (wfDCNode n) := by unfold wfDCNode; infer_instance

/-! ## The property-value cache (datacommons.py lines 164-225) -/

/-- The two mutable property maps of one `DCNode` (`_out_props`,
`_in_props`), as association lists keyed by property name. -/
structure PropsState where
  out_props : List (String × List DCNode)
  in_props : List (String × List DCNode)
deriving DecidableEq, Repr

/-- Dictionary lookup: `d[p]` when present. -/
def lookupProp : List (String × List DCNode) → String → Option (List DCNode)
  | [], _ => none
  | q :: m, p => if q.1 == p then some q.2 else lookupProp m p

/-- Dictionary store `d[p] = v`: replace the binding in place, or append
a new one. -/
def setProp : List (String × List DCNode) → String → List DCNode → List (String × List DCNode)
  | [], p, v => [(p, v)]
  | q :: m, p, v => if q.1 = p then (p, v) :: m else q :: setProp m p v

/-- The body of the remote property-value request built at lines
190-198: dcid of the node, property, direction, reload flag, the
(possibly reduced) limit, and the optional value-type filter. -/
structure PVRequest where
  dcid : Option String
  property : String
  outgoing : Bool
  reload : Bool
  limit : Nat
  value_type : Option String
deriving DecidableEq, Repr

/-- Observable outcome of one `get_property_values` call: the returned
list, the node's property maps afterwards, and the remote requests
issued (in order). -/
structure PVResult where
  result : List DCNode
  props : PropsState
  requests : List PVRequest
deriving DecidableEq, Repr

/-- Python `set` construction from a list by repeated `add` (line
206-210): keep each element whose equality class (`DCNode.__eq__`) has
not been seen yet.  First occurrence wins, as in CPython's `set.add`. -/
def dedupNodes (seen : List DCNode) : List DCNode → List DCNode
  | [] => []
  | x :: xs =>
    if seen.any (fun y => dcnodeEq y x) then dedupNodes seen xs
    else x :: dedupNodes (seen ++ [x]) xs

/-- `set(old).union(new)` at lines 216/221, as the underlying element
collection: the (deduplicated) old entry plus the new elements whose
equality class is not already present.  The list order produced by
`list(...)` is implementation defined and is supplied separately by the
caller's `shuffle`. -/
def setUnionList (old new : List DCNode) : List DCNode :=
  let o := dedupNodes [] old
  o ++ new.filter (fun r => !(o.any (fun x => dcnodeEq x r)))

/-- The cache entry consulted for a (property, direction) key:
`_out_props` for outgoing, `_in_props` for incoming (lines 180/184). -/
def entryOpt (st : PropsState) (prop : String) (outgoing : Bool) : Option (List DCNode) :=
  if outgoing then lookupProp st.out_props prop else lookupProp st.in_props prop

/-- The cache entry as a list, empty when absent. -/
def entryList (st : PropsState) (prop : String) (outgoing : Bool) : List DCNode :=
  (entryOpt st prop outgoing).getD []

/-- The fetch-and-merge path of `get_property_values` (lines 189-225):
issue one request with the given (already reduced) limit, merge the
decoded response into the cache as a set union, and return the first
`limit` elements of the rebuilt entry.  `resp` is the decoded node list
`payload[dcid][prop]` (empty when the payload misses those keys);
`shuffle` stands for the iteration order of the Python `set`. -/
def pvFetch (shuffle : List DCNode → List DCNode) (self : DCNode) (st : PropsState)
    (prop : String) (outgoing : Bool) (value_type : Option String) (reload : Bool)
    (limit : Nat) (resp : List DCNode) : PVResult :=
  let req : PVRequest :=
    { dcid := self.dcid, property := prop, outgoing := outgoing, reload := reload,
      limit := limit, value_type := value_type }
  let prop_vals := dedupNodes [] resp
  let merged := shuffle (setUnionList (entryList st prop outgoing) prop_vals)
  { result := merged.take limit,
    props :=
      if outgoing then { st with out_props := setProp st.out_props prop merged }
      else { st with in_props := setProp st.in_props prop merged },
    requests := [req] }

/-- `DCNode.get_property_values` (lines 164-225).  If the cache entry
for (prop, direction) exists and already holds at least `limit` values,
return its first `limit` values without any request; otherwise reduce
`limit` by the cached count (lines 183/187) and take the fetch path. -/
def get_property_values (shuffle : List DCNode → List DCNode) (self : DCNode)
    (st : PropsState) (prop : String) (outgoing : Bool) (value_type : Option String)
    (reload : Bool) (limit : Nat) (resp : List DCNode) : PVResult :=
  match entryOpt st prop outgoing with
  | some l =>
    if limit ≤ l.length then { result := l.take limit, props := st, requests := [] }
    else pvFetch shuffle self st prop outgoing value_type reload (limit - l.length) resp
  | none => pvFetch shuffle self st prop outgoing value_type reload limit resp

/-- No two elements of the list are equal in the sense of
`DCNode.__eq__` (the "no duplicates by Node equality" cache invariant). -/
def nodesPairwiseNE (l : List DCNode) : Prop :=
  l.Pairwise (fun a b => dcnodeEq a b = false)

instance (l : List DCNode) : Decidable (nodesPairwiseNE l) := by
  unfold nodesPairwiseNE; infer_instance

/-! ### Concrete nodes and states used in evaluations -/

def nodeA : DCNode := { dcid := some "geoId/06085", value := none, name := none, types := [] }
def nodeB : DCNode := { dcid := some "geoId/06087", value := none, name := none, types := [] }
def selfNode : DCNode := { dcid := some "geoId/06", value := none, name := none, types := [] }

/-- State whose outgoing cache for "containedIn" holds one node. -/
def st1 : PropsState := { out_props := [("containedIn", [nodeA])], in_props := [] }

/-- State whose outgoing cache for "containedIn" holds two nodes. -/
def st2 : PropsState := { out_props := [("containedIn", [nodeA, nodeB])], in_props := [] }

/-! ## DCFrame: the tabular view (datacommons.py lines 235-572)

The `DCFrame` class is kept in the source file in commented-out form; it
is the code the spec and the claims describe, so it is translated here
as written.  The pandas row store it delegates to is an external
collaborator: `assign`, `merge(how, on)`, `drop`, `fillna` and column
setitem are modelled with their standard relational semantics on an
explicit (column list, row list) table. -/

/-- A cell of the row store: a string value or an integer (the cross
join's synthetic key column holds the integer 1). -/
inductive Cell where
  | str (v : String)
  | int (v : Int)
deriving DecidableEq, Repr

/-- A pandas DataFrame, as its observable contents: ordered column
labels and rows of cells. -/
structure DataFrame where
  cols : List String
  rows : List (List Cell)
deriving DecidableEq, Repr

/-- Well-formedness: every row has one cell per column. -/
def dfWF (df : DataFrame) : Prop := ∀ r ∈ df.rows, r.length = df.cols.length

instance (df : DataFrame) : Decidable (dfWF df) := by unfold dfWF; infer_instance

/-- `DataFrame.empty`: true when either axis has length zero. -/
def dfEmpty (df : DataFrame) : Bool := df.rows.isEmpty || df.cols.isEmpty

/-- Position of a column label (length of the list when absent). -/
def colIdx : List String → String → Nat
  | [], _ => 0
  | c :: cs, x => if c = x then 0 else colIdx cs x + 1

/-- The cell of a row under a column label. -/
def cellAt (cols : List String) (row : List Cell) (c : String) : Cell :=
  row.getD (colIdx cols c) (Cell.str "")

/-- pandas `df.assign(**{c: v})` with a scalar: overwrite the column if
the label exists, else append it, broadcasting `v` to every row. -/
def assignConst (df : DataFrame) (c : String) (v : Cell) : DataFrame :=
  if df.cols.contains c then
    { cols := df.cols, rows := df.rows.map (fun r => r.set (colIdx df.cols c) v) }
  else
    { cols := df.cols ++ [c], rows := df.rows.map (fun r => r ++ [v]) }

/-- Column setitem `df[c] = vals` with a list of values. -/
def setColList (df : DataFrame) (c : String) (vals : List Cell) : DataFrame :=
  if df.cols.contains c then
    { cols := df.cols, rows := (df.rows.zip vals).map (fun p => p.1.set (colIdx df.cols c) p.2) }
  else
    { cols := df.cols ++ [c], rows := (df.rows.zip vals).map (fun p => p.1 ++ [p.2]) }

/-- `set(self.columns()) & set(frame.columns())` (line 509), as the
left-to-right filtered list (set order does not matter to the claims). -/
def sharedCols (a b : DataFrame) : List String :=
  a.cols.filter (fun c => b.cols.contains c)

/-- Columns of the right operand that are not join keys. -/
def residualCols (bcols keys : List String) : List String :=
  bcols.filter (fun c => !(keys.contains c))

/-- A right row restricted to the non-key columns. -/
def residualRow (bcols : List String) (br : List Cell) (keys : List String) : List Cell :=
  (residualCols bcols keys).map (fun c => cellAt bcols br c)

/-- Two rows agree on all join keys. -/
def rowMatches (acols : List String) (ar : List Cell) (bcols : List String)
    (br : List Cell) (keys : List String) : Bool :=
  keys.all (fun k => cellAt acols ar k == cellAt bcols br k)

/-- Inner-join rows: each left row paired with each matching right row. -/
def innerRows (a b : DataFrame) (keys : List String) : List (List Cell) :=
  (a.rows.map (fun ar =>
    (b.rows.filter (fun br => rowMatches a.cols ar b.cols br keys)).map
      (fun br => ar ++ residualRow b.cols br keys))).flatten

/-- Left-join rows: unmatched left rows survive with the fill value in
the right-only columns. -/
def leftRows (a b : DataFrame) (keys : List String) (default : Cell) : List (List Cell) :=
  (a.rows.map (fun ar =>
    let ms := b.rows.filter (fun br => rowMatches a.cols ar b.cols br keys)
    if ms.isEmpty then [ar ++ (residualCols b.cols keys).map (fun _ => default)]
    else ms.map (fun br => ar ++ residualRow b.cols br keys))).flatten

/-- A right row with no left match, laid out on the joined columns:
key columns take the right row's values, other left columns the fill. -/
def rightOnlyRow (a b : DataFrame) (keys : List String) (br : List Cell)
    (default : Cell) : List Cell :=
  a.cols.map (fun c => if keys.contains c then cellAt b.cols br c else default) ++
    residualRow b.cols br keys

/-- Right-join rows. -/
def rightRows (a b : DataFrame) (keys : List String) (default : Cell) : List (List Cell) :=
  (b.rows.map (fun br =>
    let ms := a.rows.filter (fun ar => rowMatches a.cols ar b.cols br keys)
    if ms.isEmpty then [rightOnlyRow a b keys br default]
    else ms.map (fun ar => ar ++ residualRow b.cols br keys))).flatten

/-- The right rows with no left match, for the outer join. -/
def rightUnmatched (a b : DataFrame) (keys : List String) (default : Cell) : List (List Cell) :=
  (b.rows.filter (fun br =>
    (a.rows.filter (fun ar => rowMatches a.cols ar b.cols br keys)).isEmpty)).map
    (fun br => rightOnlyRow a b keys br default)

/-- pandas `a.merge(b, how=how, left_on=keys, right_on=keys)` followed
by `fillna(default)`: SQL-style inner/left/right/full join on the key
columns, key columns kept once, unmatched cells filled. -/
def pdMergeRows (a b : DataFrame) (keys : List String) (how : String)
    (default : Cell) : List (List Cell) :=
  if how = "inner" then innerRows a b keys
  else if how = "right" then rightRows a b keys default
  else if how = "outer" then leftRows a b keys default ++ rightUnmatched a b keys default
  else leftRows a b keys default

/-- pandas merge: joined columns are the left columns followed by the
right columns that are not keys. -/
def pdMerge (a b : DataFrame) (keys : List String) (how : String)
    (default : Cell) : DataFrame :=
  { cols := a.cols ++ residualCols b.cols keys,
    rows := pdMergeRows a b keys how default }

/-- pandas `df.drop(c, 1)`: remove the labelled column. -/
def dropCol (df : DataFrame) (c : String) : DataFrame :=
  { cols := df.cols.filter (fun x => !(x == c)),
    rows := df.rows.map (fun r =>
      ((df.cols.zip r).filter (fun p => !(p.1 == c))).map (fun p => p.2)) }

/-- `_col_types` dict lookup. -/
def lookupCT : List (String × String) → String → Option String
  | [], _ => none
  | q :: m, c => if q.1 == c then some q.2 else lookupCT m c

/-- `_col_types[c] = t`: replace in place or append. -/
def insertCT : List (String × String) → String → String → List (String × String)
  | [], c, t => [(c, t)]
  | q :: m, c, t => if q.1 = c then (c, t) :: m else q :: insertCT m c t

/-- `dict.update`: store every binding of `upd` into `ct`. -/
def updateCT (ct upd : List (String × String)) : List (String × String) :=
  upd.foldl (fun acc q => insertCT acc q.1 q.2) ct

/-- A `DCFrame`: the pandas row store plus the recorded column types. -/
structure DCFrame where
  df : DataFrame
  col_types : List (String × String)
deriving DecidableEq, Repr

/-- The synthetic cross-join key of line 520:
`''.join(self.columns() + frame.columns())`. -/
def crossOnName (a b : DataFrame) : String := String.join (a.cols ++ b.cols)

/-- `DCFrame.merge` (lines 496-539).  Branches, in source order: adopt
the other frame when `self` is empty; cross join through the synthetic
constant-1 key when no columns are shared; otherwise type-check every
shared column (raising `ValueError` on the first mismatch) and join on
the shared columns with the requested mode, filling holes with
`default`.  The final `self._col_types.update(frame._col_types)` runs on
every non-raising branch. -/
def DCFrame.merge (self frame : DCFrame) (how : String) (default : Cell) :
    Except String DCFrame :=
  let merge_on := sharedCols self.df frame.df
  if dfEmpty self.df then
    .ok { df := frame.df, col_types := updateCT [] frame.col_types }
  else if merge_on.isEmpty then
    let cross_on := crossOnName self.df frame.df
    let curr := assignConst self.df cross_on (Cell.int 1)
    let newf := assignConst frame.df cross_on (Cell.int 1)
    let merged := pdMerge curr newf (sharedCols curr newf) "inner" (Cell.str "")
    .ok { df := dropCol merged cross_on,
          col_types := updateCT self.col_types frame.col_types }
  else
    match merge_on.find?
        (fun c => !(lookupCT self.col_types c == lookupCT frame.col_types c)) with
    | some c => .error ("Merge error: columns type mismatch for " ++ c ++ ".")
    | none => .ok { df := pdMerge self.df frame.df merge_on how default,
                    col_types := updateCT self.col_types frame.col_types }

/-! ## The expansion engine (datacommons.py lines 422-494) -/

/-- A term of a datalog constraint: a query variable, a constant, or a
list of constants. -/
inductive QTerm where
  | qvar (v : String)
  | qconst (s : String)
  | qconsts (l : List Cell)
deriving DecidableEq, Repr

/-- The conjunctive query built by `expand` through `utils.DatalogQuery`:
result variables and (subject, property, object) constraints in
insertion order. -/
structure DatalogQuery where
  qvars : List String
  constraints : List (QTerm × String × QTerm)
deriving DecidableEq, Repr

/-- A query as handed to `DCFrame(datalog_query=..., rows=..., labels=...,
type_hint=...)` at line 493: this is the observable remote interaction
of `expand`. -/
structure IssuedQuery where
  query : DatalogQuery
  rows : Nat
  labels : List (String × String)
  type_hint : List (String × String)
deriving DecidableEq, Repr

/-- The cells of one column, in row order (`list(seed_col)`). -/
def colCells (df : DataFrame) (c : String) : List Cell :=
  df.rows.map (fun r => cellAt df.cols r c)

/-- A two-entry Python dict literal (the later binding wins when the
keys collide). -/
def dictTwo (k1 v1 k2 v2 : String) : List (String × String) :=
  insertCT (insertCT [] k1 v1) k2 v2

/-- `s.replace(' ', '_')` for the single-character pattern used at lines
477-478: replace every space character by an underscore. -/
def underscoreSpaces (s : String) : String :=
  String.mk (s.data.map (fun ch => if ch = ' ' then '_' else ch))

/-- The tail of `DCFrame.expand` (lines 467-494): read the seed column;
when its value list is empty set the new column to empty cells and
return with no query; otherwise build the two-variable conjunctive query
over the seed identifiers and fold the result frame (produced by the
`run_query` oracle standing for the remote execution) into `self` via a
left merge with fill value the empty string. -/
def expandTail (self : DCFrame) (property seed_col_name new_col_name : String)
    (seed_col_type new_col_type : String) (outgoing : Bool) (rows : Nat)
    (run_query : IssuedQuery → DCFrame) : List IssuedQuery × Except String DCFrame :=
  let dcids := colCells self.df seed_col_name
  if dcids.isEmpty then
    ([], .ok { df := assignConst self.df new_col_name (Cell.str ""),
               col_types := insertCT self.col_types new_col_name new_col_type })
  else
    let seed_col_var := "?" ++ underscoreSpaces seed_col_name
    let new_col_var := "?" ++ underscoreSpaces new_col_name
    let q : IssuedQuery :=
      { query :=
          { qvars := [seed_col_var, new_col_var],
            constraints :=
              [(QTerm.qvar "?node", "typeOf", QTerm.qconst seed_col_type),
               (QTerm.qvar "?node", "dcid", QTerm.qconsts dcids),
               (QTerm.qvar "?node", "dcid", QTerm.qvar seed_col_var)] ++
              (if outgoing then [(QTerm.qvar "?node", property, QTerm.qvar new_col_var)]
               else [(QTerm.qvar new_col_var, property, QTerm.qvar "?node")]) },
        rows := rows,
        labels := dictTwo seed_col_var seed_col_name new_col_var new_col_name,
        type_hint := dictTwo seed_col_var seed_col_type new_col_var new_col_type }
    ([q], DCFrame.merge self (run_query q) "left" (Cell.str ""))

/-- `DCFrame.expand` (lines 422-494).  Validate the seed and new column
names, look up the seed column's recorded type and reject the generic
text type, determine the new column's type (explicit argument, else the
`Client.property_type` schema oracle, else the text default for outgoing
edges or an error for incoming ones), then run `expandTail`.  The first
component lists the queries issued to the remote service. -/
def DCFrame.expand (self : DCFrame) (property seed_col_name new_col_name : String)
    (new_col_type : Option String) (outgoing : Bool) (rows : Nat)
    (property_type : String → String → Bool → Option String)
    (run_query : IssuedQuery → DCFrame) : List IssuedQuery × Except String DCFrame :=
  if self.df.cols.contains seed_col_name = false then
    ([], .error ("Expand error: " ++ seed_col_name ++ " is not a valid seed column."))
  else if self.df.cols.contains new_col_name = true then
    ([], .error ("Expand error: " ++ new_col_name ++ " is already a column."))
  else
    match lookupCT self.col_types seed_col_name with
    | none => ([], .error ("KeyError: " ++ seed_col_name))
    | some seed_col_type =>
      if seed_col_type = "Text" then
        ([], .error ("Expand error: " ++ seed_col_name ++ " must contain DCIDs"))
      else
        match (match new_col_type with
               | some t => some t
               | none => property_type seed_col_type property outgoing) with
        | some t =>
          expandTail self property seed_col_name new_col_name seed_col_type t outgoing rows
            run_query
        | none =>
          if outgoing then
            expandTail self property seed_col_name new_col_name seed_col_type "Text" outgoing
              rows run_query
          else
            ([], .error ("Expand error: " ++ seed_col_type ++
              " does not have incoming property " ++ property))

/-! ## Reference semantics of the row store

Python attributes hold references: `self._dataframe = frame._dataframe`
(line 517) aliases the same pandas object, while `self._col_types = ...;
self._col_types.update(...)` builds a frame-private dict.  To state the
aliasing claim, dataframes and type dicts live in an explicit store and
a frame is a pair of indices into it. -/

structure Heap where
  dfs : List DataFrame
  cts : List (List (String × String))
deriving DecidableEq, Repr

structure FrameRef where
  dfRef : Nat
  ctRef : Nat
deriving DecidableEq, Repr

def getDf (h : Heap) (i : Nat) : DataFrame := h.dfs.getD i { cols := [], rows := [] }

def getCt (h : Heap) (i : Nat) : List (String × String) := h.cts.getD i []

/-- `DCFrame.merge` with Python's binding semantics explicit.  The
empty branch rebinds `self._dataframe` to the very object held by
`frame` (same store index) and rebinds `self._col_types` to a fresh dict
filled from `frame._col_types`; the other branches bind `self` to a
freshly allocated result dataframe and update `self`'s own type dict in
place. -/
def mergeH (h : Heap) (self frame : FrameRef) (how : String) (default : Cell) :
    Except String (Heap × FrameRef) :=
  let sdf := getDf h self.dfRef
  let fdf := getDf h frame.dfRef
  let merge_on := sharedCols sdf fdf
  if dfEmpty sdf then
    .ok ({ dfs := h.dfs, cts := h.cts ++ [updateCT [] (getCt h frame.ctRef)] },
         { dfRef := frame.dfRef, ctRef := h.cts.length })
  else if merge_on.isEmpty then
    let cross_on := crossOnName sdf fdf
    let curr := assignConst sdf cross_on (Cell.int 1)
    let newf := assignConst fdf cross_on (Cell.int 1)
    let merged := dropCol (pdMerge curr newf (sharedCols curr newf) "inner" (Cell.str ""))
      cross_on
    .ok ({ dfs := h.dfs ++ [merged],
           cts := h.cts.set self.ctRef
             (updateCT (getCt h self.ctRef) (getCt h frame.ctRef)) },
         { dfRef := h.dfs.length, ctRef := self.ctRef })
  else
    match merge_on.find?
        (fun c => !(lookupCT (getCt h self.ctRef) c == lookupCT (getCt h frame.ctRef) c)) with
    | some c => .error ("Merge error: columns type mismatch for " ++ c ++ ".")
    | none =>
      .ok ({ dfs := h.dfs ++ [pdMerge sdf fdf merge_on how default],
             cts := h.cts.set self.ctRef
               (updateCT (getCt h self.ctRef) (getCt h frame.ctRef)) },
           { dfRef := h.dfs.length, ctRef := self.ctRef })

/-- `DCFrame.add_column` (lines 411-420) against the explicit store:
record the type in the frame's own type dict and set the column in the
(possibly shared) row store. -/
def add_column (h : Heap) (f : FrameRef) (col_name col_type : String)
    (col_vals : List Cell) : Heap :=
  { dfs := h.dfs.set f.dfRef (setColList (getDf h f.dfRef) col_name col_vals),
    cts := h.cts.set f.ctRef (insertCT (getCt h f.ctRef) col_name col_type) }

/-! ### Concrete frames, oracles and heaps used in evaluations -/

def frameX : DCFrame :=
  { df := { cols := ["placeA"], rows := [[Cell.str "a1"], [Cell.str "a2"]] },
    col_types := [("placeA", "Text")] }

def frameY : DCFrame :=
  { df := { cols := ["placeB"], rows := [[Cell.str "b1"]] },
    col_types := [("placeB", "Text")] }

/-- One-column frame whose single column name is the string "x". -/
def frameP : DCFrame :=
  { df := { cols := ["x"], rows := [[Cell.str "v"]] }, col_types := [("x", "Text")] }

/-- One-column frame whose single column name is the empty string. -/
def frameQ : DCFrame :=
  { df := { cols := [""], rows := [[Cell.str "w"]] }, col_types := [("", "Text")] }

def frameJ1 : DCFrame :=
  { df := { cols := ["k", "u"], rows := [[Cell.str "k1", Cell.str "u1"]] },
    col_types := [("k", "City"), ("u", "Text")] }

def frameJ2 : DCFrame :=
  { df := { cols := ["k", "v"], rows := [[Cell.str "k1", Cell.str "v1"]] },
    col_types := [("k", "City"), ("v", "Text")] }

/-- Like `frameJ2` but with the shared column "k" recorded as a
different type. -/
def frameJ3 : DCFrame :=
  { df := { cols := ["k", "v"], rows := [[Cell.str "k1", Cell.str "v1"]] },
    col_types := [("k", "State"), ("v", "Text")] }

/-- Frame whose column "city" holds a single empty-string cell. -/
def frameC7 : DCFrame :=
  { df := { cols := ["city"], rows := [[Cell.str ""]] }, col_types := [("city", "City")] }

/-- Frame with a typed seed column and no rows. -/
def frameS : DCFrame :=
  { df := { cols := ["st"], rows := [] }, col_types := [("st", "State")] }

/-- Schema oracle that resolves no property range. -/
def noPT : String → String → Bool → Option String := fun _ _ _ => none

def emptyDCFrame : DCFrame := { df := { cols := [], rows := [] }, col_types := [] }

/-- Remote query oracle returning an empty frame. -/
def constQuery : IssuedQuery → DCFrame := fun _ => emptyDCFrame

/-- Heap with an empty dataframe at 0 and a one-column one at 1. -/
def heap0 : Heap :=
  { dfs := [{ cols := [], rows := [] }, { cols := ["a"], rows := [[Cell.str "1"]] }],
    cts := [[], [("a", "Text")]] }

/-! ### Helper lemmas about the cache operations -/

theorem lookupProp_setProp (m : List (String × List DCNode)) (p : String) (v : List DCNode) :
    lookupProp (setProp m p v) p = some v := by
  induction m with
  | nil => simp [setProp, lookupProp]
  | cons q m ih =>
    by_cases h : q.1 = p
    · simp [setProp, h, lookupProp]
    · simp [setProp, h, lookupProp, ih]

theorem entryOpt_pvFetch (shuffle : List DCNode → List DCNode) (self : DCNode)
    (st : PropsState) (prop : String) (d : Bool) (vt : Option String) (rl : Bool)
    (lim : Nat) (resp : List DCNode) :
    entryOpt (pvFetch shuffle self st prop d vt rl lim resp).props prop d =
      some (shuffle (setUnionList (entryList st prop d) (dedupNodes [] resp))) := by
  cases d <;> simp [pvFetch, entryOpt, lookupProp_setProp]

theorem dcnodeEq_symm (a b : DCNode) : dcnodeEq a b = dcnodeEq b a := by
  unfold dcnodeEq
  cases hpa : pyTruthy a.dcid <;> cases hpb : pyTruthy b.dcid <;> simp
  exact eq_comm

theorem neRel_symm : Symmetric (fun a b : DCNode => dcnodeEq a b = false) := by
  intro a b h
  rw [dcnodeEq_symm]
  exact h

theorem dedupNodes_mem_of_mem : ∀ (l seen : List DCNode) (x : DCNode),
    x ∈ dedupNodes seen l → x ∈ l
  | [], _, x, h => by simp [dedupNodes] at h
  | y :: ys, seen, x, h => by
    simp only [dedupNodes] at h
    split at h
    · exact List.mem_cons_of_mem _ (dedupNodes_mem_of_mem ys seen x h)
    · rcases List.mem_cons.mp h with h1 | h2
      · exact h1 ▸ List.mem_cons_self _ _
      · exact List.mem_cons_of_mem _ (dedupNodes_mem_of_mem ys (seen ++ [y]) x h2)

theorem dedupNodes_not_seen : ∀ (l seen : List DCNode) (x : DCNode),
    x ∈ dedupNodes seen l → ∀ s ∈ seen, dcnodeEq s x = false
  | [], _, x, h => by simp [dedupNodes] at h
  | y :: ys, seen, x, h => by
    simp only [dedupNodes] at h
    split at h
    · exact dedupNodes_not_seen ys seen x h
    · next hc =>
      rcases List.mem_cons.mp h with h1 | h2
      · subst h1
        intro s hs
        by_contra hne
        have hx : dcnodeEq s x = true := by revert hne; cases dcnodeEq s x <;> simp
        exact hc (List.any_eq_true.mpr ⟨s, hs, hx⟩)
      · intro s hs
        exact dedupNodes_not_seen ys (seen ++ [y]) x h2 s (List.mem_append_left _ hs)

theorem dedupNodes_pairwise : ∀ (l seen : List DCNode),
    (dedupNodes seen l).Pairwise (fun a b => dcnodeEq a b = false)
  | [], _ => by simp [dedupNodes]
  | y :: ys, seen => by
    simp only [dedupNodes]
    split
    · exact dedupNodes_pairwise ys seen
    · refine List.pairwise_cons.mpr ⟨?_, dedupNodes_pairwise ys (seen ++ [y])⟩
      intro b hb
      exact dedupNodes_not_seen ys (seen ++ [y]) b hb y (by simp)

theorem dedupNodes_eq_self : ∀ (l seen : List DCNode),
    l.Pairwise (fun a b => dcnodeEq a b = false) →
    (∀ s ∈ seen, ∀ x ∈ l, dcnodeEq s x = false) →
    dedupNodes seen l = l
  | [], _, _, _ => by simp [dedupNodes]
  | y :: ys, seen, hp, hs => by
    simp only [dedupNodes]
    have hc : (seen.any fun z => dcnodeEq z y) = false := by
      rw [List.any_eq_false]
      intro z hz
      simp [hs z hz y (List.mem_cons_self _ _)]
    rw [if_neg (by simp [hc])]
    congr 1
    apply dedupNodes_eq_self ys (seen ++ [y]) (List.pairwise_cons.mp hp).2
    intro s hsm x hx
    rcases List.mem_append.mp hsm with h1 | h2
    · exact hs s h1 x (List.mem_cons_of_mem _ hx)
    · have hsy : s = y := by simpa using h2
      subst hsy
      exact (List.pairwise_cons.mp hp).1 x hx

/-- Cache-hit path: when the consulted entry already holds at least
`limit` values the call returns its first `limit` values, leaves the
maps untouched, and issues no request (lines 180-187). -/
theorem pv_hit (shuffle : List DCNode → List DCNode) (self : DCNode) (st : PropsState)
    (prop : String) (d : Bool) (vt : Option String) (rl : Bool) (L : Nat)
    (resp l : List DCNode) (hl : entryOpt st prop d = some l) (hL : L ≤ l.length) :
    get_property_values shuffle self st prop d vt rl L resp =
      { result := l.take L, props := st, requests := [] } := by
  unfold get_property_values
  rw [hl]
  simp [hL]

/-- Cache-miss path with a short entry: the call is the fetch with the
limit reduced by the cached count (lines 183/187). -/
theorem pv_miss_some (shuffle : List DCNode → List DCNode) (self : DCNode) (st : PropsState)
    (prop : String) (d : Bool) (vt : Option String) (rl : Bool) (L : Nat)
    (resp l : List DCNode) (hl : entryOpt st prop d = some l) (hL : ¬ L ≤ l.length) :
    get_property_values shuffle self st prop d vt rl L resp =
      pvFetch shuffle self st prop d vt rl (L - l.length) resp := by
  unfold get_property_values
  rw [hl]
  simp [hL]

/-- Cache-miss path with no entry: the call is the fetch with the full
limit. -/
theorem pv_miss_none (shuffle : List DCNode → List DCNode) (self : DCNode) (st : PropsState)
    (prop : String) (d : Bool) (vt : Option String) (rl : Bool) (L : Nat)
    (resp : List DCNode) (hl : entryOpt st prop d = none) :
    get_property_values shuffle self st prop d vt rl L resp =
      pvFetch shuffle self st prop d vt rl L resp := by
  unfold get_property_values
  rw [hl]

/-- Every value returned by a call is present in the (post-call) cache
entry for its key. -/
theorem pv_result_subset_entry (shuffle : List DCNode → List DCNode) (self : DCNode)
    (st : PropsState) (prop : String) (d : Bool) (vt : Option String) (rl : Bool)
    (L : Nat) (resp : List DCNode) (x : DCNode)
    (hx : x ∈ (get_property_values shuffle self st prop d vt rl L resp).result) :
    x ∈ entryList (get_property_values shuffle self st prop d vt rl L resp).props prop d := by
  cases hl : entryOpt st prop d with
  | some l =>
    by_cases hL : L ≤ l.length
    · rw [pv_hit shuffle self st prop d vt rl L resp l hl hL] at hx ⊢
      have hxl : x ∈ l := List.take_subset L l hx
      simp [entryList, hl, hxl]
    · rw [pv_miss_some shuffle self st prop d vt rl L resp l hl hL] at hx ⊢
      rw [entryList, entryOpt_pvFetch]
      exact List.take_subset _ _ hx
  | none =>
    rw [pv_miss_none shuffle self st prop d vt rl L resp hl] at hx ⊢
    rw [entryList, entryOpt_pvFetch]
    exact List.take_subset _ _ hx

/-- Any request issued by a call asks exactly for the values missing
from the consulted cache entry: its limit plus the cached count equals
the caller's limit (lines 183/187/195). -/
theorem pv_request_limit (shuffle : List DCNode → List DCNode) (self : DCNode)
    (st : PropsState) (prop : String) (d : Bool) (vt : Option String) (rl : Bool)
    (L : Nat) (resp : List DCNode) (q : PVRequest)
    (hq : q ∈ (get_property_values shuffle self st prop d vt rl L resp).requests) :
    q.limit + (entryList st prop d).length = L := by
  cases hl : entryOpt st prop d with
  | some l =>
    by_cases hL : L ≤ l.length
    · rw [pv_hit shuffle self st prop d vt rl L resp l hl hL] at hq
      simp at hq
    · rw [pv_miss_some shuffle self st prop d vt rl L resp l hl hL] at hq
      simp only [pvFetch, List.mem_singleton] at hq
      subst hq
      simp only [entryList, hl, Option.getD_some]
      exact Nat.sub_add_cancel (Nat.le_of_lt (Nat.lt_of_not_le hL))
  | none =>
    rw [pv_miss_none shuffle self st prop d vt rl L resp hl] at hq
    simp only [pvFetch, List.mem_singleton] at hq
    subst hq
    simp [entryList, hl]

/-- After a fetch, the entry contains every (deduplicated) value it
contained before, and it still has no duplicates by Node equality. -/
theorem pvFetch_entry_grow (shuffle : List DCNode → List DCNode) (self : DCNode)
    (st : PropsState) (prop : String) (d : Bool) (vt : Option String) (rl : Bool)
    (lim : Nat) (resp : List DCNode)
    (hperm : ∀ l, List.Perm (shuffle l) l)
    (hpw : nodesPairwiseNE (entryList st prop d)) :
    (∀ x ∈ entryList st prop d,
       x ∈ entryList (pvFetch shuffle self st prop d vt rl lim resp).props prop d)
    ∧ nodesPairwiseNE (entryList (pvFetch shuffle self st prop d vt rl lim resp).props prop d) := by
  have hen : entryList (pvFetch shuffle self st prop d vt rl lim resp).props prop d =
      shuffle (setUnionList (entryList st prop d) (dedupNodes [] resp)) := by
    rw [entryList, entryOpt_pvFetch, Option.getD_some]
  have hded : dedupNodes [] (entryList st prop d) = entryList st prop d :=
    dedupNodes_eq_self _ [] hpw (by simp)
  rw [hen]
  simp only [setUnionList, hded]
  set old := entryList st prop d with hold
  set extra := (dedupNodes [] resp).filter
      (fun r => !(old.any fun x => dcnodeEq x r)) with hextra
  have hu : (old ++ extra).Pairwise (fun a b => dcnodeEq a b = false) := by
    rw [List.pairwise_append]
    refine ⟨hpw, (dedupNodes_pairwise resp []).filter _, ?_⟩
    intro a ha b hb
    have hbf := (List.mem_filter.mp hb).2
    have : (old.any fun x => dcnodeEq x b) = false := by
      revert hbf; cases old.any fun x => dcnodeEq x b <;> simp
    exact List.any_eq_false.mp this a ha |> fun hh => by
      revert hh; cases dcnodeEq a b <;> simp
  constructor
  · intro x hx
    exact ((hperm (old ++ extra)).mem_iff).mpr (List.mem_append_left _ hx)
  · exact ((hperm (old ++ extra)).pairwise_iff (fun h => neRel_symm h)).mpr hu

/-! ## Claim theorems for the Node and its property cache -/

/-- C4: two nodes compare equal under `DCNode.__eq__` exactly when both
carry the same non-empty dcid (name and types play no role); a
constructed leaf node is never equal to any constructed node — in
particular two leaves are always `!=`, even with equal values. -/
theorem dc_c4_node_equality (n1 n2 : DCNode) :
    (dcnodeEq n1 n2 = true ↔ ∃ s, ¬ s = "" ∧ n1.dcid = some s ∧ n2.dcid = some s)
    ∧ (wfDCNode n1 → wfDCNode n2 → is_leaf n1 = true ∨ is_leaf n2 = true →
        dcnodeEq n1 n2 = false ∧ dcnodeNe n1 n2 = true) := by
  constructor
  · unfold dcnodeEq pyTruthy
    cases h1 : n1.dcid with
    | none => simp
    | some x =>
      cases h2 : n2.dcid with
      | none => simp
      | some y =>
        simp only [Bool.and_eq_true, Bool.not_eq_true', beq_eq_false_iff_ne, ne_eq,
          beq_iff_eq, Option.some.injEq]
        constructor
        · rintro ⟨⟨hx, hy⟩, hxy⟩
          exact ⟨x, hx, rfl, by rw [hxy]⟩
        · rintro ⟨s, hs, hsx, hsy⟩
          cases hsx
          cases hsy
          exact ⟨⟨hs, hs⟩, rfl⟩
  · intro hw1 hw2 hleaf
    have hnone : n1.dcid = none ∨ n2.dcid = none := by
      rcases hleaf with h | h
      · rcases hw1 with ⟨_, hv⟩ | ⟨hd, _⟩
        · rw [is_leaf, hv] at h
          simp [pyTruthy] at h
        · exact Or.inl hd
      · rcases hw2 with ⟨_, hv⟩ | ⟨hd, _⟩
        · rw [is_leaf, hv] at h
          simp [pyTruthy] at h
        · exact Or.inr hd
    have heq : dcnodeEq n1 n2 = false := by
      rcases hnone with h | h <;> simp [dcnodeEq, h, pyTruthy]
    exact ⟨heq, by simp [dcnodeNe, heq]⟩

/-- C4 witness: two distinct leaf objects built from the same value are
well-formed, unequal, and `!=`; two nodes sharing dcid but differing in
name are equal. -/
theorem dc_c4_node_equality_witness :
    (dcnodeEq { dcid := some "geoId/06", value := none, name := some "California", types := [] }
       { dcid := some "geoId/06", value := none, name := none, types := ["State"] } = true)
    ∧ dcnodeNe { dcid := none, value := some "42", name := none, types := [] }
        { dcid := none, value := some "42", name := none, types := [] } = true :=
  ⟨(dc_c4_node_equality _ _).1.mpr ⟨"geoId/06", by decide, rfl, rfl⟩,
   ((dc_c4_node_equality _ _).2 (by decide) (by decide) (Or.inl (by decide))).2⟩

/-- C2: when the consulted cache entry already holds at least `limit`
values, `get_property_values` returns its first `limit` values, mutates
nothing and issues no remote request; and in any successive pair of
calls, everything the first call returned stays cached and any request
issued by the second call asks only for the values missing from the
cache (limit reduced by the cached count). -/
theorem dc_c2_cache_hit_no_refetch :
    (∀ (shuffle : List DCNode → List DCNode) (self : DCNode) (st : PropsState)
       (prop : String) (d : Bool) (vt : Option String) (rl : Bool) (L : Nat)
       (resp l : List DCNode), entryOpt st prop d = some l → L ≤ l.length →
       get_property_values shuffle self st prop d vt rl L resp =
         { result := l.take L, props := st, requests := [] })
    ∧ (∀ (shuffle1 shuffle2 : List DCNode → List DCNode) (self : DCNode)
         (st : PropsState) (prop : String) (d : Bool) (vt1 : Option String) (rl1 : Bool)
         (L1 : Nat) (resp1 : List DCNode) (vt2 : Option String) (rl2 : Bool) (L2 : Nat)
         (resp2 : List DCNode), L1 < L2 →
         (∀ x ∈ (get_property_values shuffle1 self st prop d vt1 rl1 L1 resp1).result,
            x ∈ entryList (get_property_values shuffle1 self st prop d vt1 rl1 L1 resp1).props prop d)
         ∧ ∀ q ∈ (get_property_values shuffle2 self
                    (get_property_values shuffle1 self st prop d vt1 rl1 L1 resp1).props
                    prop d vt2 rl2 L2 resp2).requests,
             q.limit +
               (entryList (get_property_values shuffle1 self st prop d vt1 rl1 L1 resp1).props prop d).length
               = L2) := by
  constructor
  · intro shuffle self st prop d vt rl L resp l hl hL
    exact pv_hit shuffle self st prop d vt rl L resp l hl hL
  · intro shuffle1 shuffle2 self st prop d vt1 rl1 L1 resp1 vt2 rl2 L2 resp2 _
    exact ⟨fun x hx => pv_result_subset_entry shuffle1 self st prop d vt1 rl1 L1 resp1 x hx,
           fun q hq => pv_request_limit shuffle2 self _ prop d vt2 rl2 L2 resp2 q hq⟩

/-- C2 witness at concrete inputs: a hit with limit 1 on a 2-element
entry, then a second call with limit 3 whose request asks for 1 value. -/
theorem dc_c2_cache_hit_no_refetch_witness :
    get_property_values id selfNode st2 "containedIn" true none false 1 [] =
      { result := [nodeA], props := st2, requests := [] } ∧
    ∀ q ∈ (get_property_values id selfNode
             (get_property_values id selfNode st2 "containedIn" true none false 1 []).props
             "containedIn" true none false 3 []).requests,
        q.limit +
          (entryList (get_property_values id selfNode st2 "containedIn" true none false 1 []).props
            "containedIn" true).length = 3 :=
  ⟨dc_c2_cache_hit_no_refetch.1 id selfNode st2 "containedIn" true none false 1 [] [nodeA, nodeB]
     (by decide) (by decide),
   (dc_c2_cache_hit_no_refetch.2 id id selfNode st2 "containedIn" true none false 1 [] none false 3 []
     (by decide)).2⟩

/-- C9: on a cache hit the `value_type` filter and the `reload` flag are
dead: the call returns the first `limit` cached values unfiltered, for
any combination of those arguments and any server behaviour. -/
theorem dc_c9_hit_ignores_filters (shuffle : List DCNode → List DCNode) (self : DCNode)
    (st : PropsState) (prop : String) (d : Bool) (vt1 vt2 : Option String)
    (rl1 rl2 : Bool) (L : Nat) (resp1 resp2 l : List DCNode)
    (hl : entryOpt st prop d = some l) (hL : L ≤ l.length) :
    get_property_values shuffle self st prop d vt1 rl1 L resp1 =
      { result := l.take L, props := st, requests := [] } ∧
    get_property_values shuffle self st prop d vt2 rl2 L resp2 =
      { result := l.take L, props := st, requests := [] } :=
  ⟨pv_hit shuffle self st prop d vt1 rl1 L resp1 l hl hL,
   pv_hit shuffle self st prop d vt2 rl2 L resp2 l hl hL⟩

/-- C9 witness: with value type "City" and reload, or no filter and no
reload, a hit returns the same first cached value. -/
theorem dc_c9_hit_ignores_filters_witness :
    get_property_values id selfNode st2 "containedIn" true (some "City") true 1 [nodeB] =
      { result := [nodeA], props := st2, requests := [] } ∧
    get_property_values id selfNode st2 "containedIn" true none false 1 [] =
      { result := [nodeA], props := st2, requests := [] } :=
  dc_c9_hit_ignores_filters id selfNode st2 "containedIn" true (some "City") none true false 1
    [nodeB] [] [nodeA, nodeB] (by decide) (by decide)

/-- C1 (code bug): with one node cached and limit 2, the miss path
issues exactly one request for the single remaining value and merges the
response, so the updated cache holds both nodes — but the function
returns only the first `2 - 1 = 1` values of the updated cache because
line 183 overwrites `limit` with the reduced remainder, while the spec
(and the claim) require the first 2 values of the updated cache. -/
theorem dc_c1_reduced_slice_evaluation :
    (entryList st1 "containedIn" true).length = 1 ∧
    (get_property_values id selfNode st1 "containedIn" true none false 2 [nodeB]).requests =
      [{ dcid := some "geoId/06", property := "containedIn", outgoing := true,
         reload := false, limit := 1, value_type := none }] ∧
    entryList (get_property_values id selfNode st1 "containedIn" true none false 2 [nodeB]).props
      "containedIn" true = [nodeA, nodeB] ∧
    (get_property_values id selfNode st1 "containedIn" true none false 2 [nodeB]).result =
      [nodeA] := by
  decide

/-- C3 (counterexample): the claim that a cache entry is never reordered
fails, because the entry is rebuilt as `list(set(...))` whose iteration
order is arbitrary: the permutation `List.reverse` is a legal set order,
and under it a fetch turns the entry [nodeA, nodeB] into [nodeB, nodeA],
which does not preserve the relative order of the cached values. -/
theorem dc_c3_order_counterexample :
    ¬ (∀ (shuffle : List DCNode → List DCNode), (∀ l, List.Perm (shuffle l) l) →
       ∀ (self : DCNode) (st : PropsState) (prop : String) (d : Bool)
         (vt : Option String) (rl : Bool) (L : Nat) (resp : List DCNode),
         (entryList st prop d).Sublist
           (entryList (get_property_values shuffle self st prop d vt rl L resp).props prop d)
         ∧ (nodesPairwiseNE (entryList st prop d) →
            nodesPairwiseNE
              (entryList (get_property_values shuffle self st prop d vt rl L resp).props prop d))) := by
  intro h
  have hsub := (h List.reverse (fun l => List.reverse_perm l) selfNode st2 "containedIn" true
    none false 3 []).1
  have h1 : entryList st2 "containedIn" true = [nodeA, nodeB] := by decide
  have h2 : entryList
      (get_property_values List.reverse selfNode st2 "containedIn" true none false 3 []).props
      "containedIn" true = [nodeB, nodeA] := by decide
  rw [h1, h2] at hsub
  exact absurd (hsub.eq_of_length (by decide)) (by decide)

/-- C3 (amended): under any legal set iteration order, a cache entry
only grows — every cached value stays cached — and never acquires
duplicates by Node equality; but its order may be arbitrarily permuted
on each fetch. -/
theorem dc_c3_grow_nodup (shuffle : List DCNode → List DCNode)
    (hperm : ∀ l, List.Perm (shuffle l) l) (self : DCNode) (st : PropsState)
    (prop : String) (d : Bool) (vt : Option String) (rl : Bool) (L : Nat)
    (resp : List DCNode) (hpw : nodesPairwiseNE (entryList st prop d)) :
    (∀ x ∈ entryList st prop d,
       x ∈ entryList (get_property_values shuffle self st prop d vt rl L resp).props prop d)
    ∧ nodesPairwiseNE
        (entryList (get_property_values shuffle self st prop d vt rl L resp).props prop d) := by
  cases hl : entryOpt st prop d with
  | some l =>
    by_cases hL : L ≤ l.length
    · rw [pv_hit shuffle self st prop d vt rl L resp l hl hL]
      exact ⟨fun x hx => hx, hpw⟩
    · rw [pv_miss_some shuffle self st prop d vt rl L resp l hl hL]
      exact pvFetch_entry_grow shuffle self st prop d vt rl (L - l.length) resp hperm hpw
  | none =>
    rw [pv_miss_none shuffle self st prop d vt rl L resp hl]
    exact pvFetch_entry_grow shuffle self st prop d vt rl L resp hperm hpw

/-- C3 amended witness: concrete fetch growing a 2-element entry. -/
theorem dc_c3_grow_nodup_witness :
    (∀ x ∈ entryList st2 "containedIn" true,
       x ∈ entryList (get_property_values id selfNode st2 "containedIn" true none false 3
         [nodeB]).props "containedIn" true)
    ∧ nodesPairwiseNE
        (entryList (get_property_values id selfNode st2 "containedIn" true none false 3
          [nodeB]).props "containedIn" true) :=
  dc_c3_grow_nodup id (fun l => List.Perm.refl l) selfNode st2 "containedIn" true none false 3
    [nodeB] (by decide)

/-! ### Helper lemmas about the tabular view -/

theorem lookupCT_insertCT (m : List (String × String)) (c t : String) :
    lookupCT (insertCT m c t) c = some t := by
  induction m with
  | nil => simp [insertCT, lookupCT]
  | cons q m ih =>
    by_cases h : q.1 = c
    · simp [insertCT, h, lookupCT]
    · simp [insertCT, h, lookupCT, ih]

theorem cellAt_append_last : ∀ (cols : List String) (row : List Cell) (c : String) (v : Cell),
    ¬ c ∈ cols → row.length = cols.length → cellAt (cols ++ [c]) (row ++ [v]) c = v
  | [], row, c, v, _, hlen => by
    have hrow : row = [] := List.eq_nil_of_length_eq_zero hlen
    subst hrow
    simp [cellAt, colIdx]
  | x :: cols, row, c, v, hmem, hlen => by
    cases row with
    | nil => simp at hlen
    | cons r rs =>
      have hxc : ¬ x = c := fun hh => hmem (hh ▸ List.mem_cons_self _ _)
      show ((r :: rs) ++ [v]).getD (colIdx ((x :: cols) ++ [c]) c) (Cell.str "") = v
      simp only [List.cons_append, colIdx, if_neg hxc, List.getD_cons_succ]
      exact cellAt_append_last cols rs c v (fun hh => hmem (List.mem_cons_of_mem _ hh))
        (by simpa using hlen)

theorem flatten_map_length_const {α β : Type} : ∀ (l : List α) (f : α → List β) (n : Nat),
    (∀ x ∈ l, (f x).length = n) → ((l.map f).flatten).length = l.length * n
  | [], _, _, _ => by simp
  | x :: xs, f, n, hf => by
    simp only [List.map_cons, List.flatten_cons, List.length_append, List.length_cons]
    rw [hf x (List.mem_cons_self _ _),
      flatten_map_length_const xs f n (fun y hy => hf y (List.mem_cons_of_mem _ hy))]
    ring

theorem getD_append_singleton {α : Type} : ∀ (l : List α) (x d : α),
    (l ++ [x]).getD l.length d = x
  | [], _, _ => rfl
  | y :: l, x, d => by
    simp only [List.cons_append, List.length_cons, List.getD_cons_succ]
    exact getD_append_singleton l x d

theorem getD_set_self {α : Type} : ∀ (l : List α) (i : Nat) (v d : α), i < l.length →
    (l.set i v).getD i d = v
  | [], _, _, _, hi => by simp at hi
  | _ :: _, 0, _, _, _ => rfl
  | x :: l, i + 1, v, d, hi => by
    simpa using getD_set_self l i v d (Nat.lt_of_succ_lt_succ hi)

theorem getD_set_ne {α : Type} : ∀ (l : List α) (i j : Nat) (v d : α), ¬ i = j →
    (l.set i v).getD j d = l.getD j d
  | [], _, _, _, _, _ => rfl
  | _ :: _, 0, 0, _, _, hij => absurd rfl hij
  | _ :: _, 0, _ + 1, _, _, _ => rfl
  | _ :: _, _ + 1, 0, _, _, _ => rfl
  | x :: l, i + 1, j + 1, v, d, hij => by
    simpa using getD_set_ne l i j v d (fun hh => hij (by rw [hh]))

/-! ## Claim theorems for the tabular view -/

/-- Shape of the synthetic-key cross join on explicit tables: with a
fresh key `k` and disjoint column sets, the assign/merge/drop pipeline
of lines 519-526 yields all columns and the full product of rows. -/
theorem cross_join_shape (acols bcols : List String) (arows brows : List (List Cell))
    (k : String)
    (hwa : ∀ r ∈ arows, r.length = acols.length)
    (hwb : ∀ r ∈ brows, r.length = bcols.length)
    (hka : ¬ k ∈ acols) (hkb : ¬ k ∈ bcols)
    (hAB : ∀ c ∈ acols, ¬ c ∈ bcols) :
    (dropCol (pdMerge (assignConst ⟨acols, arows⟩ k (Cell.int 1))
        (assignConst ⟨bcols, brows⟩ k (Cell.int 1))
        (sharedCols (assignConst ⟨acols, arows⟩ k (Cell.int 1))
          (assignConst ⟨bcols, brows⟩ k (Cell.int 1))) "inner" (Cell.str "")) k).cols
      = acols ++ bcols ∧
    (dropCol (pdMerge (assignConst ⟨acols, arows⟩ k (Cell.int 1))
        (assignConst ⟨bcols, brows⟩ k (Cell.int 1))
        (sharedCols (assignConst ⟨acols, arows⟩ k (Cell.int 1))
          (assignConst ⟨bcols, brows⟩ k (Cell.int 1))) "inner" (Cell.str "")) k).rows.length
      = arows.length * brows.length := by
  have hkac : acols.contains k = false := by simpa using hka
  have hkbc : bcols.contains k = false := by simpa using hkb
  have ha : assignConst ⟨acols, arows⟩ k (Cell.int 1) =
      ⟨acols ++ [k], arows.map (fun r => r ++ [Cell.int 1])⟩ := by
    simp [assignConst, hka]
  have hb : assignConst ⟨bcols, brows⟩ k (Cell.int 1) =
      ⟨bcols ++ [k], brows.map (fun r => r ++ [Cell.int 1])⟩ := by
    simp [assignConst, hkb]
  rw [ha, hb]
  have hkeys : sharedCols ⟨acols ++ [k], arows.map (fun r => r ++ [Cell.int 1])⟩
      ⟨bcols ++ [k], brows.map (fun r => r ++ [Cell.int 1])⟩ = [k] := by
    show (acols ++ [k]).filter (fun c => (bcols ++ [k]).contains c) = [k]
    rw [List.filter_append]
    have h1 : acols.filter (fun c => (bcols ++ [k]).contains c) = [] := by
      rw [List.filter_eq_nil_iff]
      intro c hc
      have hnb : ¬ c ∈ bcols := hAB c hc
      have hck : ¬ c = k := fun hh => hka (hh ▸ hc)
      simp [hnb, hck]
    have h2 : [k].filter (fun c => (bcols ++ [k]).contains c) = [k] := by simp
    rw [h1, h2, List.nil_append]
  rw [hkeys]
  have hres : residualCols (bcols ++ [k]) [k] = bcols := by
    rw [residualCols, List.filter_append]
    have h1 : bcols.filter (fun c => !([k].contains c)) = bcols := by
      rw [List.filter_eq_self]
      intro c hc
      have hck : ¬ c = k := fun hh => hkb (hh ▸ hc)
      simp [hck]
    have h2 : [k].filter (fun c => !([k].contains c)) = [] := by simp
    rw [h1, h2, List.append_nil]
  have hmatch : ∀ ar ∈ arows.map (fun r => r ++ [Cell.int 1]),
      ∀ br ∈ brows.map (fun r => r ++ [Cell.int 1]),
      rowMatches (acols ++ [k]) ar (bcols ++ [k]) br [k] = true := by
    intro ar har br hbr
    obtain ⟨a, hamem, rfl⟩ := List.mem_map.mp har
    obtain ⟨b, hbmem, rfl⟩ := List.mem_map.mp hbr
    rw [rowMatches]
    simp only [List.all_cons, List.all_nil, Bool.and_true]
    rw [cellAt_append_last acols a k (Cell.int 1) hka (hwa a hamem),
      cellAt_append_last bcols b k (Cell.int 1) hkb (hwb b hbmem)]
    rfl
  constructor
  · show ((acols ++ [k]) ++ residualCols (bcols ++ [k]) [k]).filter (fun x => !(x == k))
      = acols ++ bcols
    rw [hres, List.filter_append, List.filter_append]
    have h1 : acols.filter (fun x => !(x == k)) = acols := by
      rw [List.filter_eq_self]
      intro c hc
      have hck : ¬ c = k := fun hh => hka (hh ▸ hc)
      simp [hck]
    have h2 : [k].filter (fun x => !(x == k)) = [] := by simp
    have h3 : bcols.filter (fun x => !(x == k)) = bcols := by
      rw [List.filter_eq_self]
      intro c hc
      have hck : ¬ c = k := fun hh => hkb (hh ▸ hc)
      simp [hck]
    rw [h1, h2, h3, List.append_nil]
  · show ((pdMergeRows ⟨acols ++ [k], arows.map (fun r => r ++ [Cell.int 1])⟩
        ⟨bcols ++ [k], brows.map (fun r => r ++ [Cell.int 1])⟩ [k] "inner"
        (Cell.str "")).map _).length = arows.length * brows.length
    rw [List.length_map, pdMergeRows, if_pos rfl, innerRows]
    have hlen := flatten_map_length_const (arows.map (fun r => r ++ [Cell.int 1]))
      (fun ar => ((brows.map (fun r => r ++ [Cell.int 1])).filter
          (fun br => rowMatches (acols ++ [k]) ar (bcols ++ [k]) br [k])).map
        (fun br => ar ++ residualRow (bcols ++ [k]) br [k]))
      brows.length ?_
    · rw [hlen, List.length_map]
    · intro ar har
      rw [List.length_map,
        List.filter_eq_self.mpr (fun br hbr => hmatch ar har br hbr), List.length_map]

/-- C5 (counterexample): a 1×1 view with column "x" cross-joined with a
1×1 view whose column is named by the empty string.  The synthetic key
`''.join(columns)` is "x", which collides with the existing column, so
the result has 1 column instead of C1 + C2 = 2 (the assign at line 523
overwrites column "x" and the drop at line 526 removes it). -/
theorem dc_c5_key_collision_counterexample :
    sharedCols frameP.df frameQ.df = [] ∧ dfEmpty frameP.df = false ∧
    frameP.df.cols.length = 1 ∧ frameQ.df.cols.length = 1 ∧
    frameP.df.rows.length = 1 ∧ frameQ.df.rows.length = 1 ∧
    Option.map (fun R => (R.df.rows.length, R.df.cols.length))
      (DCFrame.merge frameP frameQ "left" (Cell.str "")).toOption = some (1, 1) := by
  decide

/-- C5 (amended): for a non-empty view A and a view B sharing no column
names, provided the synthetic join key (the concatenation of all column
names) does not collide with an existing column — as is the case
whenever every column name is non-empty — Merge cross-joins: exactly
R1 × R2 rows, the C1 + C2 original columns in order, and the synthetic
key absent from the result. -/
theorem dc_c5_cross_join (A B : DCFrame) (how : String) (default : Cell)
    (hwa : dfWF A.df) (hwb : dfWF B.df)
    (hne : dfEmpty A.df = false)
    (hsh : sharedCols A.df B.df = [])
    (hka : ¬ crossOnName A.df B.df ∈ A.df.cols)
    (hkb : ¬ crossOnName A.df B.df ∈ B.df.cols) :
    ∃ R, DCFrame.merge A B how default = .ok R ∧
      R.df.cols = A.df.cols ++ B.df.cols ∧
      R.df.rows.length = A.df.rows.length * B.df.rows.length ∧
      ¬ crossOnName A.df B.df ∈ R.df.cols := by
  have hmerge : DCFrame.merge A B how default = .ok
      { df := dropCol (pdMerge (assignConst A.df (crossOnName A.df B.df) (Cell.int 1))
                (assignConst B.df (crossOnName A.df B.df) (Cell.int 1))
                (sharedCols (assignConst A.df (crossOnName A.df B.df) (Cell.int 1))
                  (assignConst B.df (crossOnName A.df B.df) (Cell.int 1)))
                "inner" (Cell.str "")) (crossOnName A.df B.df),
        col_types := updateCT A.col_types B.col_types } := by
    unfold DCFrame.merge
    simp only [hne, Bool.false_eq_true, if_false, hsh, List.isEmpty_nil, if_true]
  have hAB : ∀ c ∈ A.df.cols, ¬ c ∈ B.df.cols := by
    rw [sharedCols] at hsh
    intro c hc hcb
    exact List.filter_eq_nil_iff.mp hsh c hc (by simpa using hcb)
  have hshape := cross_join_shape A.df.cols B.df.cols A.df.rows B.df.rows
    (crossOnName A.df B.df) hwa hwb hka hkb hAB
  refine ⟨_, hmerge, ?_, ?_, ?_⟩
  · exact hshape.1
  · exact hshape.2
  · show ¬ crossOnName A.df B.df ∈ (dropCol _ (crossOnName A.df B.df)).cols
    intro hmem
    rw [dropCol] at hmem
    have := List.of_mem_filter hmem
    simp at this

/-- C5 witness: a 2×1 view and a 1×1 view with disjoint non-empty column
names cross-join into a 2-row, 2-column view without the synthetic key. -/
theorem dc_c5_cross_join_witness :
    ∃ R, DCFrame.merge frameX frameY "left" (Cell.str "") = .ok R ∧
      R.df.cols = frameX.df.cols ++ frameY.df.cols ∧
      R.df.rows.length = frameX.df.rows.length * frameY.df.rows.length ∧
      ¬ crossOnName frameX.df frameY.df ∈ R.df.cols :=
  dc_c5_cross_join frameX frameY "left" (Cell.str "") (by decide) (by decide) (by decide)
    (by decide) (by decide) (by decide)

/-- C6: with both views non-empty and at least one shared column, the
merge raises the type-mismatch error exactly when some shared column has
different recorded types (no coercion path exists), and with all shared
types equal it returns the relational join in the requested mode with
the fill value. -/
theorem dc_c6_merge_type_check (A B : DCFrame) (how : String) (default : Cell)
    (hA : dfEmpty A.df = false) (hB : dfEmpty B.df = false)
    (hsh : ¬ sharedCols A.df B.df = [])
    (hty : ∀ c ∈ sharedCols A.df B.df,
      (lookupCT A.col_types c).isSome ∧ (lookupCT B.col_types c).isSome) :
    ((∃ c ∈ sharedCols A.df B.df, ¬ lookupCT A.col_types c = lookupCT B.col_types c) ↔
      ∃ msg, DCFrame.merge A B how default = .error msg)
    ∧ ((∀ c ∈ sharedCols A.df B.df, lookupCT A.col_types c = lookupCT B.col_types c) →
        DCFrame.merge A B how default = .ok
          { df := pdMerge A.df B.df (sharedCols A.df B.df) how default,
            col_types := updateCT A.col_types B.col_types }) := by
  have hisE : (sharedCols A.df B.df).isEmpty = false := by
    cases hh : sharedCols A.df B.df with
    | nil => exact absurd hh hsh
    | cons a l => rfl
  have hbranch : ∀ r, (sharedCols A.df B.df).find?
      (fun c => !(lookupCT A.col_types c == lookupCT B.col_types c)) = r →
      DCFrame.merge A B how default = (match r with
       | some c => .error ("Merge error: columns type mismatch for " ++ c ++ ".")
       | none => .ok { df := pdMerge A.df B.df (sharedCols A.df B.df) how default,
                       col_types := updateCT A.col_types B.col_types }) := by
    intro r hr
    unfold DCFrame.merge
    simp only [hA, Bool.false_eq_true, if_false, hisE]
    rw [hr]
  constructor
  · constructor
    · rintro ⟨c, hc, hcne⟩
      have hfind : ((sharedCols A.df B.df).find?
          (fun c => !(lookupCT A.col_types c == lookupCT B.col_types c))).isSome :=
        List.find?_isSome.mpr ⟨c, hc, by simp [hcne]⟩
      obtain ⟨c', hf⟩ := Option.isSome_iff_exists.mp hfind
      rw [hbranch (some c') hf]
      exact ⟨_, rfl⟩
    · rintro ⟨msg, herr⟩
      cases hf : (sharedCols A.df B.df).find?
          (fun c => !(lookupCT A.col_types c == lookupCT B.col_types c)) with
      | none =>
        rw [hbranch none hf] at herr
        simp at herr
      | some c =>
        refine ⟨c, List.mem_of_find?_eq_some hf, ?_⟩
        have := List.find?_some hf
        simpa using this
  · intro hall
    have hf : (sharedCols A.df B.df).find?
        (fun c => !(lookupCT A.col_types c == lookupCT B.col_types c)) = none := by
      rw [List.find?_eq_none]
      intro c hc
      simp [hall c hc]
    rw [hbranch none hf]

/-- C6 witness: frames sharing column "k" typed "City" on both sides
join successfully; the same left frame against one recording "k" as
"State" raises the mismatch error. -/
theorem dc_c6_merge_type_check_witness :
    DCFrame.merge frameJ1 frameJ2 "inner" (Cell.str "") = .ok
      { df := pdMerge frameJ1.df frameJ2.df (sharedCols frameJ1.df frameJ2.df) "inner"
          (Cell.str ""),
        col_types := updateCT frameJ1.col_types frameJ2.col_types } ∧
    ∃ msg, DCFrame.merge frameJ1 frameJ3 "inner" (Cell.str "") = .error msg :=
  ⟨(dc_c6_merge_type_check frameJ1 frameJ2 "inner" (Cell.str "") (by decide) (by decide)
      (by decide) (by decide)).2 (by decide),
   (dc_c6_merge_type_check frameJ1 frameJ3 "inner" (Cell.str "") (by decide) (by decide)
      (by decide) (by decide)).1.mp ⟨"k", by decide, by decide⟩⟩

/-- C7 (code bug evaluation): the seed column of `frameC7` holds exactly
one cell, the empty string — zero non-empty values — yet `expand` issues
one remote query whose dcid constraint binds the identifier list [""].
Line 469 tests `if not dcids` with `dcids = list(seed_col)`, which is
only empty when the column has no cells at all, while the comment above
it ("All entries in the seed column are empty strings") and the spec
describe skipping the query whenever no non-empty value exists. -/
theorem dc_c7_empty_seed_evaluation :
    (colCells frameC7.df "city").all (fun v => v == Cell.str "") = true ∧
    (colCells frameC7.df "city").isEmpty = false ∧
    (DCFrame.expand frameC7 "containedInPlace" "city" "country" (some "Country") true 100
        noPT constQuery).1.length = 1 ∧
    ∀ q ∈ (DCFrame.expand frameC7 "containedInPlace" "city" "country" (some "Country") true 100
        noPT constQuery).1,
      (QTerm.qvar "?node", "dcid", QTerm.qconsts [Cell.str ""]) ∈ q.query.constraints := by
  decide

theorem expandTail_empty (self : DCFrame) (property seed new t nct : String) (og : Bool)
    (rows : Nat) (rq : IssuedQuery → DCFrame)
    (he : (colCells self.df seed).isEmpty = true) :
    expandTail self property seed new t nct og rows rq =
      ([], .ok { df := assignConst self.df new (Cell.str ""),
                 col_types := insertCT self.col_types new nct }) := by
  unfold expandTail
  simp [he]

theorem expandTail_no_query (self : DCFrame) (property seed new t nct : String) (og : Bool)
    (rows : Nat) (rq : IssuedQuery → DCFrame) :
    ((expandTail self property seed new t nct og rows rq).1 = [] ↔
      (colCells self.df seed).isEmpty = true) := by
  by_cases he : (colCells self.df seed).isEmpty = true
  · rw [expandTail_empty self property seed new t nct og rows rq he]
    simp [he]
  · unfold expandTail
    simp [he]

theorem expandTail_type_hint (self : DCFrame) (property seed new t nct : String) (og : Bool)
    (rows : Nat) (rq : IssuedQuery → DCFrame) :
    ∀ q ∈ (expandTail self property seed new t nct og rows rq).1,
      q.type_hint = dictTwo ("?" ++ underscoreSpaces seed) t ("?" ++ underscoreSpaces new) nct := by
  intro q hq
  by_cases he : (colCells self.df seed).isEmpty = true
  · rw [expandTail_empty self property seed new t nct og rows rq he] at hq
    simp at hq
  · unfold expandTail at hq
    simp [he] at hq
    rw [hq]

/-- C8: with no explicit new-column type and a schema lookup that yields
nothing, an incoming expansion fails with the schema error while an
outgoing expansion defaults the new column's type to "Text": every
issued query carries the "Text" hint for the new variable, and the
no-query path records "Text" for the new column. -/
theorem dc_c8_expand_type_default (self : DCFrame) (property seed new : String) (rows : Nat)
    (pt : String → String → Bool → Option String) (rq : IssuedQuery → DCFrame) (t : String)
    (hseed : self.df.cols.contains seed = true)
    (hnew : self.df.cols.contains new = false)
    (hty : lookupCT self.col_types seed = some t)
    (htt : ¬ t = "Text")
    (hpt_out : pt t property true = none)
    (hpt_in : pt t property false = none) :
    DCFrame.expand self property seed new none false rows pt rq =
      ([], .error ("Expand error: " ++ t ++ " does not have incoming property " ++ property))
    ∧ (∀ q ∈ (DCFrame.expand self property seed new none true rows pt rq).1,
        lookupCT q.type_hint ("?" ++ underscoreSpaces new) = some "Text")
    ∧ ((DCFrame.expand self property seed new none true rows pt rq).1 = [] →
       ∃ fr, (DCFrame.expand self property seed new none true rows pt rq).2 = .ok fr ∧
         lookupCT fr.col_types new = some "Text") := by
  have hseedm : seed ∈ self.df.cols := by simpa using hseed
  have hnewm : ¬ new ∈ self.df.cols := by simpa using hnew
  have hin : DCFrame.expand self property seed new none false rows pt rq =
      ([], .error ("Expand error: " ++ t ++ " does not have incoming property " ++ property)) := by
    unfold DCFrame.expand
    simp [hseed, hseedm, hnewm, hty, htt, hpt_in]
  have hout : DCFrame.expand self property seed new none true rows pt rq =
      expandTail self property seed new t "Text" true rows rq := by
    unfold DCFrame.expand
    simp [hseed, hseedm, hnewm, hty, htt, hpt_out]
  refine ⟨hin, ?_, ?_⟩
  · intro q hq
    rw [hout] at hq
    rw [expandTail_type_hint self property seed new t "Text" true rows rq q hq]
    simp only [dictTwo]
    exact lookupCT_insertCT _ _ _
  · intro hnil
    rw [hout] at hnil ⊢
    have he := (expandTail_no_query self property seed new t "Text" true rows rq).mp hnil
    rw [expandTail_empty self property seed new t "Text" true rows rq he]
    exact ⟨_, rfl, lookupCT_insertCT _ _ _⟩

/-- C8 witness: a frame with a typed empty seed column: the incoming
expansion errors, the outgoing one records "Text" for the new column. -/
theorem dc_c8_expand_type_default_witness :
    DCFrame.expand frameS "containedInPlace" "st" "country" none false 7 noPT constQuery =
      ([], .error ("Expand error: " ++ "State" ++ " does not have incoming property " ++
        "containedInPlace")) ∧
    ∃ fr, (DCFrame.expand frameS "containedInPlace" "st" "country" none true 7 noPT
        constQuery).2 = .ok fr ∧ lookupCT fr.col_types "country" = some "Text" :=
  ⟨(dc_c8_expand_type_default frameS "containedInPlace" "st" "country" 7 noPT constQuery "State"
      (by decide) (by decide) (by decide) (by decide) rfl rfl).1,
   (dc_c8_expand_type_default frameS "containedInPlace" "st" "country" 7 noPT constQuery "State"
      (by decide) (by decide) (by decide) (by decide) rfl rfl).2.2 (by decide)⟩

/-- C10: merging into an empty view rebinds the view's row store to the
very store object of the argument (same reference) while the type map is
rebuilt as a frame-private copy: afterwards an `add_column` through the
merged view is observable through the argument's row store, but the
argument's type map is untouched and only the merged view's own type map
records the new column. -/
theorem dc_c10_empty_merge_aliasing (h : Heap) (f1 f2 : FrameRef) (how : String)
    (default : Cell)
    (hd2 : f2.dfRef < h.dfs.length) (hc2 : f2.ctRef < h.cts.length)
    (hemp : dfEmpty (getDf h f1.dfRef) = true) :
    ∃ h1 f1', mergeH h f1 f2 how default = .ok (h1, f1') ∧
      f1'.dfRef = f2.dfRef ∧
      ¬ f1'.ctRef = f2.ctRef ∧
      getCt h1 f1'.ctRef = updateCT [] (getCt h f2.ctRef) ∧
      ∀ name ty vals,
        getDf (add_column h1 f1' name ty vals) f2.dfRef =
          setColList (getDf h1 f2.dfRef) name vals ∧
        getCt (add_column h1 f1' name ty vals) f2.ctRef = getCt h1 f2.ctRef ∧
        getCt (add_column h1 f1' name ty vals) f1'.ctRef =
          insertCT (getCt h1 f1'.ctRef) name ty := by
  have hmerge : mergeH h f1 f2 how default = .ok
      ({ dfs := h.dfs, cts := h.cts ++ [updateCT [] (getCt h f2.ctRef)] },
       { dfRef := f2.dfRef, ctRef := h.cts.length }) := by
    unfold mergeH
    simp only [hemp, if_true]
  refine ⟨_, _, hmerge, rfl, ?_, ?_, ?_⟩
  · show ¬ h.cts.length = f2.ctRef
    omega
  · show ((h.cts ++ [updateCT [] (getCt h f2.ctRef)]).getD h.cts.length []) =
      updateCT [] (getCt h f2.ctRef)
    exact getD_append_singleton _ _ _
  · intro name ty vals
    refine ⟨?_, ?_, ?_⟩
    · show (h.dfs.set f2.dfRef (setColList
          (getDf { dfs := h.dfs, cts := h.cts ++ [updateCT [] (getCt h f2.ctRef)] } f2.dfRef)
          name vals)).getD f2.dfRef { cols := [], rows := [] } =
        setColList (getDf { dfs := h.dfs, cts := h.cts ++ [updateCT [] (getCt h f2.ctRef)] }
          f2.dfRef) name vals
      exact getD_set_self _ _ _ _ hd2
    · show (((h.cts ++ [updateCT [] (getCt h f2.ctRef)]).set h.cts.length _).getD f2.ctRef [])
        = ((h.cts ++ [updateCT [] (getCt h f2.ctRef)]).getD f2.ctRef [])
      exact getD_set_ne _ _ _ _ _ (by omega)
    · show (((h.cts ++ [updateCT [] (getCt h f2.ctRef)]).set h.cts.length
          (insertCT ((h.cts ++ [updateCT [] (getCt h f2.ctRef)]).getD h.cts.length [])
            name ty)).getD h.cts.length [])
        = insertCT ((h.cts ++ [updateCT [] (getCt h f2.ctRef)]).getD h.cts.length []) name ty
      exact getD_set_self _ _ _ _ (by simp)

/-- C10 witness on a concrete two-frame heap. -/
theorem dc_c10_empty_merge_aliasing_witness :
    ∃ h1 f1', mergeH heap0 ⟨0, 0⟩ ⟨1, 1⟩ "left" (Cell.str "") = .ok (h1, f1') ∧
      f1'.dfRef = 1 ∧
      ¬ f1'.ctRef = 1 ∧
      getCt h1 f1'.ctRef = updateCT [] (getCt heap0 1) ∧
      ∀ name ty vals,
        getDf (add_column h1 f1' name ty vals) 1 = setColList (getDf h1 1) name vals ∧
        getCt (add_column h1 f1' name ty vals) 1 = getCt h1 1 ∧
        getCt (add_column h1 f1' name ty vals) f1'.ctRef =
          insertCT (getCt h1 f1'.ctRef) name ty :=
  dc_c10_empty_merge_aliasing heap0 ⟨0, 0⟩ ⟨1, 1⟩ "left" (Cell.str "") (by decide) (by decide)
    (by decide)
